import Mathlib

/-
Verification development for the host command-queue and on-device dispatch
coordination of a tile-based AI accelerator.

The definitions below are a shallow embedding of:
  tt_metal/hw/firmware/src/idle_erisc.cc        (dispatch firmware loop)
  tt_metal/impl/dispatch/command_queue.hpp      (transfer types, multicast encoding)
  tt_metal/impl/program.hpp                     (the Program container)
Machine integers are modelled as Nat; bit operations use Nat's built-in
bitwise operators. Constants and helpers that live in headers outside the
provided sources (dev_msgs.h, noc_parameters.h, circular_buffer.h) are
modelled from the specification and marked as such in their doc comments.
-/

namespace TT

/-! ### Constants from headers

The mailbox token values and dispatch constants below come from dev_msgs.h,
which is not among the provided sources. -/

/-- Modelled from the spec: the go token written by the dispatcher into the
go-message mailbox (dev_msgs.h is not in the sources).  Only its distinctness
from RUN_MSG_DONE matters to the firmware loop. -/
def RUN_MSG_GO : Nat := 0x80

/-- Modelled from the spec: the done token the firmware writes back into the
go-message mailbox. -/
def RUN_MSG_DONE : Nat := 0

/-- Modelled from the spec: the go token written into a slave sync byte. -/
def RUN_SYNC_MSG_GO : Nat := 0x80

/-- Modelled from the spec: the done token a slave writes into its sync byte. -/
def RUN_SYNC_MSG_DONE : Nat := 0

/-- Modelled from the spec: the packed sentinel for the slave-sync word such
that the all field compares equal iff every slave byte is RUN_SYNC_MSG_DONE.
With RUN_SYNC_MSG_DONE equal to 0 the packed sentinel is 0. -/
def RUN_SYNC_MSG_ALL_SLAVES_DONE : Nat := 0

/-- Modelled from the spec: dispatch mode value for device-dispatch mode
(the mode checked at idle_erisc.cc line 163). -/
def DISPATCH_MODE_DEV : Nat := 0

/-- Modelled from the spec: dispatch mode value for host-driven mode, the
other member of the dispatch-mode enumeration in dev_msgs.h. -/
def DISPATCH_MODE_HOST : Nat := 1

/-- Modelled from the spec: enable-mask bit for the DM0 processor class of an
ethernet (idle erisc) core. -/
def DISPATCH_CLASS_MASK_ETH_DM0 : Nat := 1

/-- Modelled from the spec: enable-mask bit for the DM1 processor class of an
ethernet (idle erisc) core. -/
def DISPATCH_CLASS_MASK_ETH_DM1 : Nat := 2

/-- Modelled from the spec: the underlying value of EthProcessorTypes.DM0 used
to index kernel_text_offset at idle_erisc.cc line 150. -/
def EthProcessorTypes_DM0 : Nat := 0

/-- Modelled from the spec: L1 address of the dispatch-message (ack) region on
the dispatcher core.  The concrete value is irrelevant to the claims. -/
def DISPATCH_MESSAGE_ADDR : Nat := 0x11000

/-- Modelled from the spec: the virtual channel used for unicast NOC writes. -/
def NOC_UNICAST_WRITE_VC : Nat := 1

/-- Modelled from the spec: the NOC command buffer the idle erisc uses for its
atomic increments. -/
def NCRISC_AT_CMD_BUF : Nat := 2

/-- Modelled from the spec: the width in bits of one NOC node-id coordinate
field (noc_parameters.h is not in the sources; 6 is the grayskull value the
spec's address layout refers to). -/
def NOC_ADDR_NODE_ID_BITS : Nat := 6

/-- Modelled from the spec: number of address bits local to one NOC node,
below the packed x and y coordinate fields of a 64-bit NOC address. -/
def NOC_ADDR_LOCAL_BITS : Nat := 36

/-- Modelled from the spec: number of circular-buffer operand slots per core
(the NUM_CIRCULAR_BUFFERS constant of the missing circular_buffer.h header). -/
def NUM_CIRCULAR_BUFFERS : Nat := 32

/-- NOC_X from command_queue.hpp line 106: the identity on the x coordinate. -/
def NOC_X (x : Nat) : Nat := x

/-- NOC_Y from command_queue.hpp line 107: the identity on the y coordinate. -/
def NOC_Y (y : Nat) : Nat := y

/-- Modelled from the spec: the NOC_XY_ADDR packing of an (x, y, local address)
triple into a 64-bit NOC address, with y above x above the local-address bits
(noc_parameters.h is not in the sources). -/
def NOC_XY_ADDR (x y a : Nat) : Nat :=
  (y <<< (NOC_ADDR_LOCAL_BITS + NOC_ADDR_NODE_ID_BITS)) ||| (x <<< NOC_ADDR_LOCAL_BITS) ||| a

/-! ### Mailbox data model (dev_msgs.h structures, as laid out in the spec) -/

/-- The kernel_config part of a launch message. -/
structure KernelConfig where
  enables : Nat
  brisc_noc_id : Nat
  cb_offset : Nat
  kernel_text_offset : Nat → Nat
  mode : Nat
  host_assigned_id : Nat

/-- The go message: signal plus the master (dispatcher) coordinates and the
dispatch-message offset. -/
structure GoMessage where
  signal : Nat
  master_x : Nat
  master_y : Nat
  dispatch_message_offset : Nat

/-- The slave-sync word, one byte per slave data-movement processor; the all
view packs the bytes into one word. -/
structure SlaveSync where
  dm0 : Nat
  dm1 : Nat

/-- The packed all view of the slave-sync word. -/
def SlaveSync.all (s : SlaveSync) : Nat := s.dm0 + 256 * s.dm1

/-- Writing the packed all view sets every slave byte at once. -/
def slaveSyncOfAll (v : Nat) : SlaveSync :=
  { dm0 := v % 256, dm1 := v / 256 % 256 }

/-- A launch message (the firmware reads only its kernel_config part). -/
structure LaunchMsg where
  kernel_config : KernelConfig

/-- The per-core mailbox region: the launch-message ring, its read pointer,
the go message and the slave-sync word.  The ring is modelled as a total map
from slot index to message; the ring capacity is passed to the firmware
functions as a parameter N (launch_msg_buffer_num_entries in dev_msgs.h). -/
structure Mailboxes where
  launch : Nat → LaunchMsg
  launch_msg_rd_ptr : Nat
  go_message : GoMessage
  slave_sync : SlaveSync

/-! ### Observable events of one firmware loop iteration -/

/-- Externally observable actions of the idle-erisc loop body, in program
order: the write of RUN_SYNC_MSG_GO to a slave, the call into the user kernel,
each read of the slave-sync word inside the wait loop, the write of the go
signal, the NOC atomic increment toward the dispatcher, and the write of the
ring read pointer. -/
inductive Event where
  | slaveRunSignal (v : Nat)
  | kernelCall (addr : Nat) (arg : Nat)
  | slaveSyncRead (v : Nat)
  | goSignalWrite (v : Nat)
  | atomicInc (noc : Nat) (cmdBuf : Nat) (addr : Nat) (vc : Nat) (incr : Nat)
      (wrapVal : Nat) (linked : Bool)
  | rdPtrWrite (v : Nat)
deriving DecidableEq, Repr

/-- True exactly on NOC atomic-increment events. -/
def isAtomicInc : Event → Bool
  | Event.atomicInc _ _ _ _ _ _ _ => true
  | _ => false

/-- Number of NOC atomic-increment events in a trace. -/
def countAtomicInc (t : List Event) : Nat := t.countP isAtomicInc

/-- The kernel calls of a trace, as address-argument pairs. -/
def kernelCalls (t : List Event) : List (Nat × Nat) :=
  t.filterMap fun e =>
    match e with
    | Event.kernelCall a b => some (a, b)
    | _ => none

/-! ### Per-CB sync registers and init_sync_registers (idle_erisc.cc 72-81) -/

/-- The per-operand tiles-received and tiles-acked counters.  The pointer
helpers of the missing circular_buffer.h header address one distinct cell per
operand per counter, so the register file is modelled as two maps from operand
index to value. -/
structure SyncRegs where
  tiles_received : Nat → Nat
  tiles_acked : Nat → Nat

/-- One iteration of the init_sync_registers loop body: store 0 through the
tiles-received pointer and then the tiles-acked pointer of one operand. -/
def write_cb_counters (s : SyncRegs) (operand : Nat) : SyncRegs :=
  let s1 : SyncRegs :=
    { s with tiles_received := fun i => if i = operand then 0 else s.tiles_received i }
  { s1 with tiles_acked := fun i => if i = operand then 0 else s1.tiles_acked i }

/-- init_sync_registers from idle_erisc.cc lines 72-81: for every operand in
the half-open range from 0 to NUM_CIRCULAR_BUFFERS, clear both counters. -/
def init_sync_registers (s : SyncRegs) : SyncRegs :=
  (List.range NUM_CIRCULAR_BUFFERS).foldl write_cb_counters s

/-! ### The firmware loop body (idle_erisc.cc 83-180) -/

/-- run_slave_eriscs from idle_erisc.cc lines 83-87: when the DM1 enable bit
is set, write RUN_SYNC_MSG_GO into the dm1 slave-sync byte. -/
def run_slave_eriscs (enables : Nat) (s : SlaveSync) : SlaveSync × List Event :=
  if enables &&& DISPATCH_CLASS_MASK_ETH_DM1 ≠ 0 then
    ({ s with dm1 := RUN_SYNC_MSG_GO }, [Event.slaveRunSignal RUN_SYNC_MSG_GO])
  else (s, [])

/-- wait_slave_eriscs from idle_erisc.cc lines 89-95: re-read the packed
slave-sync word until it equals RUN_SYNC_MSG_ALL_SLAVES_DONE.  The word is
written concurrently by the slave processors, so the successive values the
reads return are supplied as a schedule; the wait terminates iff the schedule
reaches the sentinel, and each read is recorded as an event. -/
def wait_slave_eriscs : List Nat → Option (List Event)
  | [] => none
  | v :: rest =>
    if v = RUN_SYNC_MSG_ALL_SLAVES_DONE then some [Event.slaveSyncRead v]
    else
      match wait_slave_eriscs rest with
      | none => none
      | some evs => some (Event.slaveSyncRead v :: evs)

/-- The dispatcher ack address as the firmware computes it at idle_erisc.cc
lines 165-167: NOC_XY_ADDR applied to NOC_X of master_x, NOC_Y of master_x
(the source reads master_x for both coordinates), and DISPATCH_MESSAGE_ADDR
plus the dispatch-message offset. -/
def dispatch_addr_of (g : GoMessage) : Nat :=
  NOC_XY_ADDR (NOC_X g.master_x) (NOC_Y g.master_x)
    (DISPATCH_MESSAGE_ADDR + g.dispatch_message_offset)

/-- The dispatcher ack address as the spec states it: NOC_XY_ADDR applied to
master_x as the x coordinate and master_y as the y coordinate. -/
def dispatch_addr_spec (g : GoMessage) : Nat :=
  NOC_XY_ADDR (NOC_X g.master_x) (NOC_Y g.master_y)
    (DISPATCH_MESSAGE_ADDR + g.dispatch_message_offset)

/-- The kernel-call events of one loop body iteration (idle_erisc.cc lines
148-156): when the DM0 enable bit is set, the function at kernel_config_base
plus the DM0 kernel_text_offset is called with its own address as argument. -/
def kernelCallEvents (kernel_config_base : Nat) (lm : LaunchMsg) : List Event :=
  if lm.kernel_config.enables &&& DISPATCH_CLASS_MASK_ETH_DM0 ≠ 0 then
    let kernel_address :=
      kernel_config_base + lm.kernel_config.kernel_text_offset EthProcessorTypes_DM0
    [Event.kernelCall kernel_address kernel_address]
  else []

/-- The part of the loop body from the go-signal write onward (idle_erisc.cc
lines 160-172), given the events the slave wait produced: set the go signal
to RUN_MSG_DONE, and in DEV mode clear the launch message's enables, issue
the ack atomic increment and advance the ring read pointer by one under the
power-of-two mask. -/
def loopBodyCore (N kernel_config_base : Nat) (m : Mailboxes) (evWait : List Event) :
    Mailboxes × List Event :=
  let rd := m.launch_msg_rd_ptr
  let lm := m.launch rd
  let enables := lm.kernel_config.enables
  let sr := run_slave_eriscs enables m.slave_sync
  let evKernel := kernelCallEvents kernel_config_base lm
  let m1 : Mailboxes :=
    { m with slave_sync := sr.1,
             go_message := { m.go_message with signal := RUN_MSG_DONE } }
  if lm.kernel_config.mode = DISPATCH_MODE_DEV then
    let rd' := (rd + 1) &&& (N - 1)
    let m2 : Mailboxes :=
      { m1 with
        launch := fun i =>
          if i = rd then { kernel_config := { lm.kernel_config with enables := 0 } }
          else m1.launch i,
        launch_msg_rd_ptr := rd' }
    (m2, sr.2 ++ evKernel ++ evWait ++
      [Event.goSignalWrite RUN_MSG_DONE,
       Event.atomicInc lm.kernel_config.brisc_noc_id NCRISC_AT_CMD_BUF
         (dispatch_addr_of m.go_message) NOC_UNICAST_WRITE_VC 1 31 false,
       Event.rdPtrWrite rd'])
  else
    (m1, sr.2 ++ evKernel ++ evWait ++ [Event.goSignalWrite RUN_MSG_DONE])

/-- The loop body of main from idle_erisc.cc lines 129-178, entered after the
go signal has been observed.  N is the ring capacity
launch_msg_buffer_num_entries; kernel_config_base is the value returned by
firmware_config_init (whose definition is outside the provided sources);
slaveSched is the schedule of values the slave-sync wait loop reads.  Returns
the updated mailboxes and the event trace, or none when the wait never sees
the sentinel. -/
def loopBody (N kernel_config_base : Nat) (m : Mailboxes) (slaveSched : List Nat) :
    Option (Mailboxes × List Event) :=
  match wait_slave_eriscs slaveSched with
  | none => none
  | some evWait => some (loopBodyCore N kernel_config_base m evWait)

/-- The go-signal wait loop of idle_erisc.cc lines 122-126: re-read the go
signal until it equals RUN_MSG_GO.  As with the slave wait, the host writes
the field concurrently, so the values read are supplied as a schedule. -/
def wait_go_signal : List Nat → Bool
  | [] => false
  | v :: rest => if v = RUN_MSG_GO then true else wait_go_signal rest

/-- One full iteration of the dispatch loop (idle_erisc.cc lines 118-179):
clear the per-CB sync registers, wait for the go signal, then run the loop
body. -/
def loopIter (N kernel_config_base : Nat) (s : SyncRegs) (m : Mailboxes)
    (goSched slaveSched : List Nat) : Option (SyncRegs × Mailboxes × List Event) :=
  let s1 := init_sync_registers s
  if wait_go_signal goSched then
    match loopBody N kernel_config_base m slaveSched with
    | none => none
    | some (m', tr) => some (s1, m', tr)
  else none

/-- The host-side action between two launches: the dispatcher deposits the
next launch message in the slot the firmware will read next. -/
def hostWrite (m : Mailboxes) (lm : LaunchMsg) : Mailboxes :=
  { m with launch := fun i => if i = m.launch_msg_rd_ptr then lm else m.launch i }

/-- The external input to one launch: the launch message the dispatcher
writes, plus the schedules of the two wait loops. -/
structure LaunchInput where
  msg : LaunchMsg
  goSched : List Nat
  slaveSched : List Nat

/-- Run the dispatch loop for a sequence of launches, threading the sync
registers and the mailbox state and concatenating the traces.  This is the
loop of idle_erisc.cc line 118 iterated, as built for ARCH_BLACKHOLE where
the terminal heartbeat loop at lines 174-178 is absent. -/
def runLaunches (N kernel_config_base : Nat) :
    SyncRegs → Mailboxes → List LaunchInput → Option (SyncRegs × Mailboxes × List Event)
  | s, m, [] => some (s, m, [])
  | s, m, inp :: rest =>
    match loopIter N kernel_config_base s (hostWrite m inp.msg) inp.goSched inp.slaveSched with
    | none => none
    | some (s', m', tr) =>
      match runLaunches N kernel_config_base s' m' rest with
      | none => none
      | some (s'', m'', tr') => some (s'', m'', tr ++ tr')

/-- The firmware boot sequence of main, idle_erisc.cc lines 106-114: set the
slave-sync word to the all-slaves-done sentinel, the go signal to
RUN_MSG_DONE and the ring read pointer to 0, in that order, all before the
first loop iteration. -/
def bootMailboxes (m : Mailboxes) : Mailboxes :=
  let m1 : Mailboxes := { m with slave_sync := slaveSyncOfAll RUN_SYNC_MSG_ALL_SLAVES_DONE }
  let m2 : Mailboxes := { m1 with go_message := { m1.go_message with signal := RUN_MSG_DONE } }
  { m2 with launch_msg_rd_ptr := 0 }

/-! ### Transfer types and the multicast encoding (command_queue.hpp) -/

/-- TransferType from command_queue.hpp lines 36-47: the five RISC-V binary
transfer kinds B, N (NCRISC), T0, T1, T2 plus the CB and SEM config kinds. -/
inductive TransferType where
  | B
  | N
  | T0
  | T1
  | T2
  | CB
  | SEM
deriving DecidableEq, Repr

/-- transfer_type_to_string from command_queue.hpp lines 61-70.  The TT_THROW
of the default branch is modelled as Except.error with the thrown message. -/
def transfer_type_to_string : TransferType → Except String String
  | TransferType.B => Except.ok ("B")
  | TransferType.N => Except.ok ("NC")
  | TransferType.T0 => Except.ok ("T0")
  | TransferType.T1 => Except.ok ("T1")
  | TransferType.T2 => Except.ok ("T2")
  | _ => Except.error ("Invalid riscv type")

/-- NOC_MULTICAST_ENCODING from command_queue.hpp lines 109-111: pack the
rectangle corners into one word, x_start shifted by twice the node-id width,
y_start by three times, x_end unshifted, y_end by once. -/
def NOC_MULTICAST_ENCODING (x_start y_start x_end y_end : Nat) : Nat :=
  (x_start <<< (2 * NOC_ADDR_NODE_ID_BITS)) ||| (y_start <<< (3 * NOC_ADDR_NODE_ID_BITS)) |||
    x_end ||| (y_end <<< NOC_ADDR_NODE_ID_BITS)

/-- Field extractor for the packed multicast word: the k-th node-id-width
field, counting from the least significant bits. -/
def mcast_field (w k : Nat) : Nat :=
  w / 2 ^ (k * NOC_ADDR_NODE_ID_BITS) % 2 ^ NOC_ADDR_NODE_ID_BITS

/-! ### The Program container (program.hpp) -/

/-- A logical core coordinate. -/
structure CoreCoord where
  x : Nat
  y : Nat
deriving DecidableEq, Repr

/-- The processor classes a kernel can target (kernel.hpp is not in the
sources; the three classes are fixed by the data model of the spec). -/
inductive KernelClass where
  | dataMovement0
  | dataMovement1
  | compute
deriving DecidableEq, Repr

/-- Modelled from the spec: a compiled kernel with its processor class and
target core set (kernel.hpp is outside the provided sources; only the fields
the Program accessors inspect are modelled). -/
structure Kernel where
  kernelClass : KernelClass
  cores : List CoreCoord
deriving DecidableEq, Repr

/-- Modelled from the spec: a circular-buffer config with its operand index,
core set, geometry and L1 address (circular_buffer.hpp is outside the
provided sources). -/
structure CircularBuffer where
  buffer_index : Nat
  cores : List CoreCoord
  num_tiles : Nat
  size_in_bytes : Nat
  l1_address : Nat
deriving DecidableEq, Repr

/-- Modelled from the spec: a semaphore with its core set, L1 address and
initial value (semaphore.hpp is outside the provided sources). -/
structure Semaphore where
  cores : List CoreCoord
  address : Nat
  initial_value : Nat
deriving DecidableEq, Repr

/-- The runtime-args map of program.hpp line 21, modelled as an association
list from core and processor class to the argument vector. -/
def RuntimeArgs := List ((CoreCoord × KernelClass) × List Nat)
deriving DecidableEq

/-- KernelGroup from program.hpp lines 15-19: the up-to-three kernels placed
on one core, one per processor class. -/
structure KernelGroup where
  compute : Option Kernel
  riscv_0 : Option Kernel
  riscv_1 : Option Kernel
deriving DecidableEq, Repr

/-- Program from program.hpp lines 23-169: the container of kernels,
circular buffers, semaphores and runtime args.  The private mutators
(add_kernel and friends) are reachable only through the Create... friend
functions; the public member functions are the const observers modelled
below. -/
structure Program where
  kernels_ : List Kernel
  circular_buffers_ : List CircularBuffer
  semaphores_ : List Semaphore
  core_to_runtime_args_ : RuntimeArgs
deriving DecidableEq

/-- Program.kernels (program.hpp line 35), as a state transformer returning
the observation and the container state it leaves behind. -/
def Program.kernels (p : Program) : List Kernel × Program := (p.kernels_, p)

/-- Program.circular_buffers (program.hpp line 37). -/
def Program.circular_buffers (p : Program) : List CircularBuffer × Program :=
  (p.circular_buffers_, p)

/-- Program.semaphores (program.hpp line 39). -/
def Program.semaphores (p : Program) : List Semaphore × Program := (p.semaphores_, p)

/-- Modelled from the spec: Program.compute_kernels (declared at program.hpp
line 41, body outside the sources) selects the stored kernels of the compute
class. -/
def Program.compute_kernels (p : Program) : List Kernel × Program :=
  (p.kernels_.filter (fun k => k.kernelClass == KernelClass.compute), p)

/-- Modelled from the spec: Program.data_movement_kernels (program.hpp line
43) selects the stored kernels of the two data-movement classes. -/
def Program.data_movement_kernels (p : Program) : List Kernel × Program :=
  (p.kernels_.filter (fun k => k.kernelClass != KernelClass.compute), p)

/-- Modelled from the spec: Program.kernels_on_core (program.hpp line 45)
groups the kernels whose core set contains the given core. -/
def Program.kernels_on_core (p : Program) (c : CoreCoord) : KernelGroup × Program :=
  let onCore := p.kernels_.filter (fun k => k.cores.contains c)
  ({ compute := onCore.find? (fun k => k.kernelClass == KernelClass.compute),
     riscv_0 := onCore.find? (fun k => k.kernelClass == KernelClass.dataMovement0),
     riscv_1 := onCore.find? (fun k => k.kernelClass == KernelClass.dataMovement1) }, p)

/-- Modelled from the spec: Program.logical_cores (program.hpp line 53)
collects the distinct cores named by the stored kernels. -/
def Program.logical_cores (p : Program) : List CoreCoord × Program :=
  ((p.kernels_.flatMap (fun k => k.cores)).dedup, p)

/-- Program.runtime_args (program.hpp line 57). -/
def Program.runtime_args (p : Program) : RuntimeArgs × Program :=
  (p.core_to_runtime_args_, p)

/-- The public operations of the Program interface named by the claim, as a
closed syntax so the frame property can be stated once over all of them.
Copy construction and copy assignment are deleted at program.hpp lines 27-28
and therefore have no operation here. -/
inductive ProgramOp where
  | kernels
  | circular_buffers
  | semaphores
  | compute_kernels
  | data_movement_kernels
  | kernels_on_core (c : CoreCoord)
  | logical_cores
  | runtime_args
deriving DecidableEq, Repr

/-- The observation each public operation returns. -/
inductive ProgramObs where
  | kernelList (l : List Kernel)
  | cbList (l : List CircularBuffer)
  | semList (l : List Semaphore)
  | group (g : KernelGroup)
  | coreList (l : List CoreCoord)
  | args (r : RuntimeArgs)
deriving DecidableEq

/-- Interpret one public operation on a Program, returning the observation
and the container state afterward. -/
def applyProgramOp : ProgramOp → Program → ProgramObs × Program
  | ProgramOp.kernels, p => (ProgramObs.kernelList (p.kernels).1, (p.kernels).2)
  | ProgramOp.circular_buffers, p => (ProgramObs.cbList (p.circular_buffers).1, (p.circular_buffers).2)
  | ProgramOp.semaphores, p => (ProgramObs.semList (p.semaphores).1, (p.semaphores).2)
  | ProgramOp.compute_kernels, p => (ProgramObs.kernelList (p.compute_kernels).1, (p.compute_kernels).2)
  | ProgramOp.data_movement_kernels, p =>
      (ProgramObs.kernelList (p.data_movement_kernels).1, (p.data_movement_kernels).2)
  | ProgramOp.kernels_on_core c, p =>
      (ProgramObs.group (p.kernels_on_core c).1, (p.kernels_on_core c).2)
  | ProgramOp.logical_cores, p => (ProgramObs.coreList (p.logical_cores).1, (p.logical_cores).2)
  | ProgramOp.runtime_args, p => (ProgramObs.args (p.runtime_args).1, (p.runtime_args).2)

/-! ### Concrete fixtures used by counterexamples and witnesses -/

/-- A DEV-mode kernel config with both enable bits set. -/
def kcfgDEV : KernelConfig :=
  { enables := 3, brisc_noc_id := 0, cb_offset := 16,
    kernel_text_offset := fun _ => 256, mode := DISPATCH_MODE_DEV, host_assigned_id := 7 }

/-- A host-mode kernel config, identical to the DEV fixture except for mode. -/
def kcfgHOST : KernelConfig := { kcfgDEV with mode := DISPATCH_MODE_HOST }

/-- A go message whose master coordinates differ: the dispatcher sits at
x equal to 1 and y equal to 2. -/
def goFix : GoMessage :=
  { signal := RUN_MSG_GO, master_x := 1, master_y := 2, dispatch_message_offset := 4 }

/-- A mailbox fixture whose every ring slot holds a DEV-mode launch message. -/
def mbDEV : Mailboxes :=
  { launch := fun _ => { kernel_config := kcfgDEV }, launch_msg_rd_ptr := 0,
    go_message := goFix, slave_sync := slaveSyncOfAll RUN_SYNC_MSG_ALL_SLAVES_DONE }

/-- A mailbox fixture whose ring holds host-mode launch messages. -/
def mbHOST : Mailboxes :=
  { launch := fun _ => { kernel_config := kcfgHOST }, launch_msg_rd_ptr := 0,
    go_message := goFix, slave_sync := slaveSyncOfAll RUN_SYNC_MSG_ALL_SLAVES_DONE }

/-- A sync-register fixture with nonzero counters everywhere. -/
def sFix : SyncRegs :=
  { tiles_received := fun i => i + 3, tiles_acked := fun i => 2 * i + 5 }

/-- A DEV-mode launch input whose wait loops each read one non-final value
before succeeding. -/
def inpDEV : LaunchInput :=
  { msg := { kernel_config := kcfgDEV },
    goSched := [RUN_MSG_DONE, RUN_MSG_GO],
    slaveSched := [RUN_SYNC_MSG_GO, RUN_SYNC_MSG_ALL_SLAVES_DONE] }

/-- The loop body evaluated on the DEV fixture. -/
def bodyDEV : Option (Mailboxes × List Event) :=
  loopBody 4 100 mbDEV [RUN_SYNC_MSG_GO, RUN_SYNC_MSG_ALL_SLAVES_DONE]

/-- The result the DEV-fixture loop body returns. -/
def bodyDEVResult : Mailboxes × List Event := bodyDEV.get (by rfl)

/-- The loop body evaluated on the host-mode fixture. -/
def bodyHOST : Option (Mailboxes × List Event) :=
  loopBody 4 100 mbHOST [RUN_SYNC_MSG_ALL_SLAVES_DONE]

/-- The result the host-mode-fixture loop body returns. -/
def bodyHOSTResult : Mailboxes × List Event := bodyHOST.get (by rfl)

/-- A full iteration evaluated on the DEV fixture. -/
def iterDEV : Option (SyncRegs × Mailboxes × List Event) :=
  loopIter 4 100 sFix mbDEV [RUN_MSG_GO] [RUN_SYNC_MSG_ALL_SLAVES_DONE]

/-- The result the DEV-fixture iteration returns. -/
def iterDEVResult : SyncRegs × Mailboxes × List Event := iterDEV.get (by rfl)

/-- Three consecutive DEV launches on a ring of capacity four. -/
def runDEV : Option (SyncRegs × Mailboxes × List Event) :=
  runLaunches 4 100 sFix mbDEV [inpDEV, inpDEV, inpDEV]

/-- The result of the three-launch run. -/
def runDEVResult : SyncRegs × Mailboxes × List Event := runDEV.get (by rfl)

/-! ## Helper lemmas -/

/-- Every successful slave wait produces only slave-sync read events and ends
with the read that saw the all-slaves-done sentinel. -/
theorem wait_slave_eriscs_shape (sched : List Nat) (evs : List Event)
    (h : wait_slave_eriscs sched = some evs) :
    (∃ pre, evs = pre ++ [Event.slaveSyncRead RUN_SYNC_MSG_ALL_SLAVES_DONE]) ∧
    ∀ e ∈ evs, ∃ v, e = Event.slaveSyncRead v := by
  induction sched generalizing evs with
  | nil => simp [wait_slave_eriscs] at h
  | cons v rest ih =>
    by_cases hv : v = RUN_SYNC_MSG_ALL_SLAVES_DONE
    · subst hv
      simp only [wait_slave_eriscs, if_true, eq_self_iff_true, if_pos, Option.some.injEq] at h
      subst h
      exact ⟨⟨[], by simp⟩, by intro e he; simp at he; exact ⟨_, he⟩⟩
    · simp only [wait_slave_eriscs, if_neg hv] at h
      cases hr : wait_slave_eriscs rest with
      | none => rw [hr] at h; simp at h
      | some evs' =>
        rw [hr] at h
        simp only [Option.some.injEq] at h
        subst h
        obtain ⟨⟨pre, hpre⟩, hall⟩ := ih evs' hr
        refine ⟨⟨Event.slaveSyncRead v :: pre, by simp [hpre]⟩, ?_⟩
        intro e he
        simp only [List.mem_cons] at he
        rcases he with he | he
        · exact ⟨v, he⟩
        · exact hall e he

/-- The slave-run prelude contains only slave-run-signal events. -/
theorem run_slave_eriscs_shape (enables : Nat) (s : SlaveSync) :
    ∀ e ∈ (run_slave_eriscs enables s).2, e = Event.slaveRunSignal RUN_SYNC_MSG_GO := by
  unfold run_slave_eriscs
  split <;> simp

/-- The kernel-call prelude contains only kernel-call events. -/
theorem kernelCallEvents_shape (base : Nat) (lm : LaunchMsg) :
    ∀ e ∈ kernelCallEvents base lm, ∃ a, e = Event.kernelCall a a := by
  unfold kernelCallEvents
  split <;> simp

/-- countAtomicInc distributes over concatenation. -/
theorem countAtomicInc_append (a b : List Event) :
    countAtomicInc (a ++ b) = countAtomicInc a + countAtomicInc b :=
  List.countP_append _ _ _

/-- A list without atomic-increment events has count zero. -/
theorem countAtomicInc_eq_zero (l : List Event) (h : ∀ e ∈ l, isAtomicInc e = false) :
    countAtomicInc l = 0 := by
  unfold countAtomicInc
  induction l with
  | nil => rfl
  | cons e rest ih =>
    rw [List.countP_cons]
    have he := h e (by simp)
    have hr := ih (fun e' he' => h e' (by simp [he']))
    simp [he, hr]

/-- kernelCalls distributes over concatenation. -/
theorem kernelCalls_append (a b : List Event) :
    kernelCalls (a ++ b) = kernelCalls a ++ kernelCalls b :=
  List.filterMap_append _ _ _

/-- A list without kernel-call events contributes no kernel calls. -/
theorem kernelCalls_eq_nil (l : List Event)
    (h : ∀ e ∈ l, ∀ a b, e ≠ Event.kernelCall a b) : kernelCalls l = [] := by
  unfold kernelCalls
  induction l with
  | nil => rfl
  | cons e rest ih
  =>
    rw [List.filterMap_cons]
    have hr := ih (fun e' he' => h e' (by simp [he']))
    cases e with
    | kernelCall a b => exact absurd rfl (h (Event.kernelCall a b) (by simp) a b)
    | _ => simpa using hr

/-- A successful loop body is the core applied to the events of a successful
slave wait. -/
theorem loopBody_eq_core (N base : Nat) (m : Mailboxes) (sched : List Nat)
    (m' : Mailboxes) (tr : List Event) (h : loopBody N base m sched = some (m', tr)) :
    ∃ evWait, wait_slave_eriscs sched = some evWait ∧
      loopBodyCore N base m evWait = (m', tr) := by
  unfold loopBody at h
  cases hw : wait_slave_eriscs sched with
  | none => rw [hw] at h; simp at h
  | some evWait =>
    rw [hw] at h
    simp only [Option.some.injEq] at h
    exact ⟨evWait, rfl, h⟩

/-- The trace of the loop-body core: the slave-run prelude, then the kernel
call, then the wait reads, then the go-done write and, in DEV mode, the ack
increment and the read-pointer advance. -/
theorem loopBodyCore_trace (N base : Nat) (m : Mailboxes) (evWait : List Event) :
    (loopBodyCore N base m evWait).2 =
      (run_slave_eriscs (m.launch m.launch_msg_rd_ptr).kernel_config.enables m.slave_sync).2 ++
      kernelCallEvents base (m.launch m.launch_msg_rd_ptr) ++ evWait ++
      (if (m.launch m.launch_msg_rd_ptr).kernel_config.mode = DISPATCH_MODE_DEV then
        [Event.goSignalWrite RUN_MSG_DONE,
         Event.atomicInc (m.launch m.launch_msg_rd_ptr).kernel_config.brisc_noc_id
           NCRISC_AT_CMD_BUF (dispatch_addr_of m.go_message) NOC_UNICAST_WRITE_VC 1 31 false,
         Event.rdPtrWrite ((m.launch_msg_rd_ptr + 1) &&& (N - 1))]
      else [Event.goSignalWrite RUN_MSG_DONE]) := by
  by_cases hm : (m.launch m.launch_msg_rd_ptr).kernel_config.mode = DISPATCH_MODE_DEV <;>
    simp [loopBodyCore, hm]

/-- The loop-body core always leaves the go signal at RUN_MSG_DONE. -/
theorem loopBodyCore_signal (N base : Nat) (m : Mailboxes) (evWait : List Event) :
    (loopBodyCore N base m evWait).1.go_message.signal = RUN_MSG_DONE := by
  by_cases hm : (m.launch m.launch_msg_rd_ptr).kernel_config.mode = DISPATCH_MODE_DEV <;>
    simp [loopBodyCore, hm]

/-- The loop-body core advances the ring read pointer by one under the mask
exactly in DEV mode. -/
theorem loopBodyCore_rd (N base : Nat) (m : Mailboxes) (evWait : List Event) :
    (loopBodyCore N base m evWait).1.launch_msg_rd_ptr =
      if (m.launch m.launch_msg_rd_ptr).kernel_config.mode = DISPATCH_MODE_DEV
      then (m.launch_msg_rd_ptr + 1) &&& (N - 1) else m.launch_msg_rd_ptr := by
  by_cases hm : (m.launch m.launch_msg_rd_ptr).kernel_config.mode = DISPATCH_MODE_DEV <;>
    simp [loopBodyCore, hm]

/-- A successful full iteration splits into the sync-register clear and a
successful loop body. -/
theorem loopIter_parts (N base : Nat) (s : SyncRegs) (m : Mailboxes)
    (gs ss : List Nat) (s' : SyncRegs) (m' : Mailboxes) (tr : List Event)
    (h : loopIter N base s m gs ss = some (s', m', tr)) :
    s' = init_sync_registers s ∧ loopBody N base m ss = some (m', tr) := by
  unfold loopIter at h
  split at h
  · cases hb : loopBody N base m ss with
    | none => rw [hb] at h; simp at h
    | some r =>
      obtain ⟨m2, tr2⟩ := r
      rw [hb] at h
      simp only [Option.some.injEq, Prod.mk.injEq] at h
      obtain ⟨h1, h2, h3⟩ := h
      subst h1; subst h2; subst h3
      exact ⟨rfl, rfl⟩
  · simp at h

/-- The read pointer after a successful full iteration. -/
theorem loopIter_rd (N base : Nat) (s : SyncRegs) (m : Mailboxes)
    (gs ss : List Nat) (s' : SyncRegs) (m' : Mailboxes) (tr : List Event)
    (h : loopIter N base s m gs ss = some (s', m', tr)) :
    m'.launch_msg_rd_ptr =
      if (m.launch m.launch_msg_rd_ptr).kernel_config.mode = DISPATCH_MODE_DEV
      then (m.launch_msg_rd_ptr + 1) &&& (N - 1) else m.launch_msg_rd_ptr := by
  obtain ⟨-, hb⟩ := loopIter_parts N base s m gs ss s' m' tr h
  obtain ⟨evWait, hw, hcore⟩ := loopBody_eq_core N base m ss m' tr hb
  have hrd := loopBodyCore_rd N base m evWait
  rw [hcore] at hrd
  exact hrd

/-- hostWrite leaves the read pointer alone and deposits the message in the
slot the firmware reads next. -/
theorem hostWrite_read (m : Mailboxes) (lm : LaunchMsg) :
    (hostWrite m lm).launch_msg_rd_ptr = m.launch_msg_rd_ptr ∧
    (hostWrite m lm).launch (hostWrite m lm).launch_msg_rd_ptr = lm := by
  exact ⟨rfl, by simp [hostWrite]⟩

/-- Clearing the first n operands leaves both counters of every operand below
n at zero. -/
theorem range_foldl_write_zero (n : Nat) : ∀ (s : SyncRegs) (operand : Nat), operand < n →
    ((List.range n).foldl write_cb_counters s).tiles_received operand = 0 ∧
    ((List.range n).foldl write_cb_counters s).tiles_acked operand = 0 := by
  induction n with
  | zero => intro s operand h; omega
  | succ k ih =>
    intro s operand h
    rw [List.range_succ, List.foldl_append, List.foldl_cons, List.foldl_nil]
    by_cases ho : operand = k
    · subst ho
      exact ⟨by simp [write_cb_counters], by simp [write_cb_counters]⟩
    · have hk : operand < k := by omega
      obtain ⟨h1, h2⟩ := ih s operand hk
      exact ⟨by simp [write_cb_counters, ho, h1], by simp [write_cb_counters, ho, h2]⟩

/-! ## Claim theorems -/

/-- C9: after the boot sequence of main and before the first loop iteration,
the mailbox reads slave_sync.all equal to RUN_SYNC_MSG_ALL_SLAVES_DONE, the
go signal equal to RUN_MSG_DONE, and launch_msg_rd_ptr equal to 0, whatever
state the mailbox was in before boot. -/
theorem C9_boot_mailbox_state (m : Mailboxes) :
    (bootMailboxes m).slave_sync.all = RUN_SYNC_MSG_ALL_SLAVES_DONE ∧
    (bootMailboxes m).go_message.signal = RUN_MSG_DONE ∧
    (bootMailboxes m).launch_msg_rd_ptr = 0 :=
  ⟨rfl, rfl, rfl⟩

/-- C10: transfer_type_to_string maps the five RISC-V transfer types B, N,
T0, T1, T2 to the strings B, NC, T0, T1, T2 and throws Invalid riscv type on
every other member of the TransferType enumeration, namely CB and SEM. -/
theorem C10_transfer_type_to_string_cases :
    transfer_type_to_string TransferType.B = Except.ok ("B") ∧
    transfer_type_to_string TransferType.N = Except.ok ("NC") ∧
    transfer_type_to_string TransferType.T0 = Except.ok ("T0") ∧
    transfer_type_to_string TransferType.T1 = Except.ok ("T1") ∧
    transfer_type_to_string TransferType.T2 = Except.ok ("T2") ∧
    transfer_type_to_string TransferType.CB = Except.error ("Invalid riscv type") ∧
    transfer_type_to_string TransferType.SEM = Except.error ("Invalid riscv type") :=
  ⟨rfl, rfl, rfl, rfl, rfl, rfl, rfl⟩

/-- C8: every public operation of the Program interface leaves the container
state (kernel list, circular-buffer list, semaphore list, runtime-args map)
unchanged; copy construction and copy assignment are deleted in the header
and so appear in no operation. -/
theorem C8_program_ops_frame (op : ProgramOp) (p : Program) :
    (applyProgramOp op p).2 = p := by
  cases op <;> rfl

/-- C1: at a go message with distinct master coordinates the firmware's ack
address reads master_x for both packed coordinates, so it differs from the
address NOC_XY_ADDR master_x master_y the spec states; the DEV-mode loop body
emits its single atomic increment with that x-for-y address, wrap 31, the
unicast-write virtual channel and linked false. -/
theorem C1_dispatch_ack_addr_bug :
    goFix.master_x = 1 ∧ goFix.master_y = 2 ∧
    dispatch_addr_of goFix = NOC_XY_ADDR 1 1 (DISPATCH_MESSAGE_ADDR + 4) ∧
    dispatch_addr_spec goFix = NOC_XY_ADDR 1 2 (DISPATCH_MESSAGE_ADDR + 4) ∧
    dispatch_addr_of goFix ≠ dispatch_addr_spec goFix ∧
    bodyDEV = some bodyDEVResult ∧
    countAtomicInc bodyDEVResult.2 = 1 ∧
    Event.atomicInc kcfgDEV.brisc_noc_id NCRISC_AT_CMD_BUF (dispatch_addr_of goFix)
      NOC_UNICAST_WRITE_VC 1 31 false ∈ bodyDEVResult.2 := by
  refine ⟨rfl, rfl, rfl, rfl, by decide, rfl, rfl, by decide⟩

/-- C5: every successful dispatch-loop iteration applies init_sync_registers
before the go-signal wait, so at launch the tiles-received and tiles-acked
counters of every circular-buffer operand index below NUM_CIRCULAR_BUFFERS
read zero. -/
theorem C5_sync_registers_cleared (N base : Nat) (s : SyncRegs) (m : Mailboxes)
    (gs ss : List Nat) (s' : SyncRegs) (m' : Mailboxes) (tr : List Event)
    (h : loopIter N base s m gs ss = some (s', m', tr))
    (operand : Nat) (hop : operand < NUM_CIRCULAR_BUFFERS) :
    s' = init_sync_registers s ∧
    s'.tiles_received operand = 0 ∧ s'.tiles_acked operand = 0 := by
  obtain ⟨hs, -⟩ := loopIter_parts N base s m gs ss s' m' tr h
  subst hs
  exact ⟨rfl, range_foldl_write_zero NUM_CIRCULAR_BUFFERS s operand hop⟩

/-- Witness for C5 at the DEV fixture: operand 0 of a nonzero register file
reads zero after the iteration starts. -/
theorem C5_sync_registers_cleared_witness :
    iterDEV = some iterDEVResult ∧ 0 < NUM_CIRCULAR_BUFFERS ∧
    (iterDEVResult.1 = init_sync_registers sFix ∧
     iterDEVResult.1.tiles_received 0 = 0 ∧ iterDEVResult.1.tiles_acked 0 = 0) :=
  ⟨rfl, by decide,
    C5_sync_registers_cleared 4 100 sFix mbDEV [RUN_MSG_GO] [RUN_SYNC_MSG_ALL_SLAVES_DONE]
      iterDEVResult.1 iterDEVResult.2.1 iterDEVResult.2.2 (Option.some_get (by rfl)).symm
      0 (by decide)⟩

/-- C3 counterexample: a loop-body iteration that observes the go signal and
whose launch message is in host mode (mode distinct from DISPATCH_MODE_DEV)
sets the go signal to RUN_MSG_DONE but emits zero atomic increments, so the
claim that every observed-go iteration emits exactly one is false as stated. -/
theorem C3_counterexample_host_mode :
    mbHOST.go_message.signal = RUN_MSG_GO ∧
    (mbHOST.launch mbHOST.launch_msg_rd_ptr).kernel_config.mode ≠ DISPATCH_MODE_DEV ∧
    bodyHOST = some bodyHOSTResult ∧
    bodyHOSTResult.1.go_message.signal = RUN_MSG_DONE ∧
    countAtomicInc bodyHOSTResult.2 = 0 ∧ ¬countAtomicInc bodyHOSTResult.2 = 1 :=
  ⟨rfl, by decide, rfl, rfl, rfl, by decide⟩

/-- C3 (amended): every loop-body iteration that observed the go signal and
whose waits terminate sets the go signal to RUN_MSG_DONE, and it emits
exactly one atomic increment to the dispatch ack address when the launch
message's mode is DISPATCH_MODE_DEV and none otherwise. -/
theorem C3_go_done_single_ack (N base : Nat) (m : Mailboxes) (sched : List Nat)
    (m' : Mailboxes) (tr : List Event)
    (hgo : m.go_message.signal = RUN_MSG_GO)
    (h : loopBody N base m sched = some (m', tr)) :
    m'.go_message.signal = RUN_MSG_DONE ∧
    countAtomicInc tr =
      (if (m.launch m.launch_msg_rd_ptr).kernel_config.mode = DISPATCH_MODE_DEV
       then 1 else 0) := by
  obtain ⟨evWait, hw, hcore⟩ := loopBody_eq_core N base m sched m' tr h
  constructor
  · have hs := loopBodyCore_signal N base m evWait
    rw [hcore] at hs
    exact hs
  · have htr : tr = (loopBodyCore N base m evWait).2 := by rw [hcore]
    rw [htr, loopBodyCore_trace, countAtomicInc_append, countAtomicInc_append,
      countAtomicInc_append]
    have c1 : countAtomicInc
        (run_slave_eriscs (m.launch m.launch_msg_rd_ptr).kernel_config.enables m.slave_sync).2 = 0 := by
      refine countAtomicInc_eq_zero _ ?_
      intro e he
      rw [run_slave_eriscs_shape _ _ e he]
      rfl
    have c2 : countAtomicInc (kernelCallEvents base (m.launch m.launch_msg_rd_ptr)) = 0 := by
      refine countAtomicInc_eq_zero _ ?_
      intro e he
      obtain ⟨a, ha⟩ := kernelCallEvents_shape base _ e he
      rw [ha]
      rfl
    have c3 : countAtomicInc evWait = 0 := by
      refine countAtomicInc_eq_zero _ ?_
      intro e he
      obtain ⟨v, hv⟩ := (wait_slave_eriscs_shape sched evWait hw).2 e he
      rw [hv]
      rfl
    rw [c1, c2, c3]
    by_cases hm : (m.launch m.launch_msg_rd_ptr).kernel_config.mode = DISPATCH_MODE_DEV <;>
      simp [hm, countAtomicInc, List.countP, List.countP.go, isAtomicInc]

/-- Witness for C3 at the DEV fixture: the go signal ends at done and the
trace holds exactly one atomic increment. -/
theorem C3_go_done_single_ack_witness :
    mbDEV.go_message.signal = RUN_MSG_GO ∧
    (bodyDEVResult.1.go_message.signal = RUN_MSG_DONE ∧
     countAtomicInc bodyDEVResult.2 =
      (if (mbDEV.launch mbDEV.launch_msg_rd_ptr).kernel_config.mode = DISPATCH_MODE_DEV
       then 1 else 0)) :=
  ⟨rfl, C3_go_done_single_ack 4 100 mbDEV [RUN_SYNC_MSG_GO, RUN_SYNC_MSG_ALL_SLAVES_DONE]
    bodyDEVResult.1 bodyDEVResult.2 rfl (Option.some_get (by rfl)).symm⟩

/-- C4: in every successful loop-body iteration the trace splits at a
slave-sync read that saw RUN_SYNC_MSG_ALL_SLAVES_DONE, and no event before
that read writes RUN_MSG_DONE to the go signal or is an atomic increment:
the firmware never signals done or acks the dispatcher before the wait loop
has observed that every slave is done. -/
theorem C4_ack_only_after_slaves_done (N base : Nat) (m : Mailboxes) (sched : List Nat)
    (m' : Mailboxes) (tr : List Event)
    (h : loopBody N base m sched = some (m', tr)) :
    ∃ pre post, tr = pre ++ Event.slaveSyncRead RUN_SYNC_MSG_ALL_SLAVES_DONE :: post ∧
      ∀ e ∈ pre, e ≠ Event.goSignalWrite RUN_MSG_DONE ∧ isAtomicInc e = false := by
  obtain ⟨evWait, hw, hcore⟩ := loopBody_eq_core N base m sched m' tr h
  obtain ⟨⟨wpre, hwpre⟩, hall⟩ := wait_slave_eriscs_shape sched evWait hw
  have htr : tr = (loopBodyCore N base m evWait).2 := by rw [hcore]
  rw [loopBodyCore_trace, hwpre] at htr
  refine ⟨(run_slave_eriscs (m.launch m.launch_msg_rd_ptr).kernel_config.enables
      m.slave_sync).2 ++ kernelCallEvents base (m.launch m.launch_msg_rd_ptr) ++ wpre,
    (if (m.launch m.launch_msg_rd_ptr).kernel_config.mode = DISPATCH_MODE_DEV then
      [Event.goSignalWrite RUN_MSG_DONE,
       Event.atomicInc (m.launch m.launch_msg_rd_ptr).kernel_config.brisc_noc_id
         NCRISC_AT_CMD_BUF (dispatch_addr_of m.go_message) NOC_UNICAST_WRITE_VC 1 31 false,
       Event.rdPtrWrite ((m.launch_msg_rd_ptr + 1) &&& (N - 1))]
     else [Event.goSignalWrite RUN_MSG_DONE]), ?_, ?_⟩
  · rw [htr]
    simp [List.append_assoc]
  · intro e he
    simp only [List.append_assoc, List.mem_append] at he
    rcases he with he | he | he
    · rw [run_slave_eriscs_shape _ _ e he]
      exact ⟨by simp, rfl⟩
    · obtain ⟨a, ha⟩ := kernelCallEvents_shape base _ e he
      rw [ha]
      exact ⟨by simp, rfl⟩
    · have hmem : e ∈ evWait := by rw [hwpre]; exact List.mem_append_left _ he
      obtain ⟨v, hv⟩ := hall e hmem
      rw [hv]
      exact ⟨by simp, rfl⟩

/-- Witness for C4 at the DEV fixture. -/
theorem C4_ack_only_after_slaves_done_witness :
    ∃ pre post,
      bodyDEVResult.2 = pre ++ Event.slaveSyncRead RUN_SYNC_MSG_ALL_SLAVES_DONE :: post ∧
      ∀ e ∈ pre, e ≠ Event.goSignalWrite RUN_MSG_DONE ∧ isAtomicInc e = false :=
  C4_ack_only_after_slaves_done 4 100 mbDEV [RUN_SYNC_MSG_GO, RUN_SYNC_MSG_ALL_SLAVES_DONE]
    bodyDEVResult.1 bodyDEVResult.2 (Option.some_get (by rfl)).symm

/-- C6: in every successful loop-body iteration, when the DM0 enable bit of
the launch message is set the trace holds exactly one kernel call, at
kernel_config_base plus the DM0 kernel_text_offset, with that same address
passed as the argument; when the bit is clear there is no kernel call. -/
theorem C6_dm0_kernel_call (N base : Nat) (m : Mailboxes) (sched : List Nat)
    (m' : Mailboxes) (tr : List Event)
    (h : loopBody N base m sched = some (m', tr)) :
    kernelCalls tr =
      (if (m.launch m.launch_msg_rd_ptr).kernel_config.enables &&&
          DISPATCH_CLASS_MASK_ETH_DM0 ≠ 0 then
        [(base + (m.launch m.launch_msg_rd_ptr).kernel_config.kernel_text_offset
            EthProcessorTypes_DM0,
          base + (m.launch m.launch_msg_rd_ptr).kernel_config.kernel_text_offset
            EthProcessorTypes_DM0)]
      else []) := by
  obtain ⟨evWait, hw, hcore⟩ := loopBody_eq_core N base m sched m' tr h
  have htr : tr = (loopBodyCore N base m evWait).2 := by rw [hcore]
  rw [htr, loopBodyCore_trace, kernelCalls_append, kernelCalls_append, kernelCalls_append]
  have c1 : kernelCalls
      (run_slave_eriscs (m.launch m.launch_msg_rd_ptr).kernel_config.enables m.slave_sync).2 = [] := by
    refine kernelCalls_eq_nil _ ?_
    intro e he a b
    rw [run_slave_eriscs_shape _ _ e he]
    simp
  have c3 : kernelCalls evWait = [] := by
    refine kernelCalls_eq_nil _ ?_
    intro e he a b
    obtain ⟨v, hv⟩ := (wait_slave_eriscs_shape sched evWait hw).2 e he
    rw [hv]
    simp
  have c4 : kernelCalls
      (if (m.launch m.launch_msg_rd_ptr).kernel_config.mode = DISPATCH_MODE_DEV then
        [Event.goSignalWrite RUN_MSG_DONE,
         Event.atomicInc (m.launch m.launch_msg_rd_ptr).kernel_config.brisc_noc_id
           NCRISC_AT_CMD_BUF (dispatch_addr_of m.go_message) NOC_UNICAST_WRITE_VC 1 31 false,
         Event.rdPtrWrite ((m.launch_msg_rd_ptr + 1) &&& (N - 1))]
      else [Event.goSignalWrite RUN_MSG_DONE]) = [] := by
    split <;> rfl
  rw [c1, c3, c4]
  have c2 : kernelCalls (kernelCallEvents base (m.launch m.launch_msg_rd_ptr)) =
      (if (m.launch m.launch_msg_rd_ptr).kernel_config.enables &&&
          DISPATCH_CLASS_MASK_ETH_DM0 ≠ 0 then
        [(base + (m.launch m.launch_msg_rd_ptr).kernel_config.kernel_text_offset
            EthProcessorTypes_DM0,
          base + (m.launch m.launch_msg_rd_ptr).kernel_config.kernel_text_offset
            EthProcessorTypes_DM0)]
      else []) := by
    unfold kernelCallEvents
    split <;> rfl
  rw [c2]
  simp

/-- Witness for C6 at the DEV fixture, whose launch message has the DM0
enable bit set. -/
theorem C6_dm0_kernel_call_witness :
    kernelCalls bodyDEVResult.2 =
      (if (mbDEV.launch mbDEV.launch_msg_rd_ptr).kernel_config.enables &&&
          DISPATCH_CLASS_MASK_ETH_DM0 ≠ 0 then
        [(100 + (mbDEV.launch mbDEV.launch_msg_rd_ptr).kernel_config.kernel_text_offset
            EthProcessorTypes_DM0,
          100 + (mbDEV.launch mbDEV.launch_msg_rd_ptr).kernel_config.kernel_text_offset
            EthProcessorTypes_DM0)]
      else []) :=
  C6_dm0_kernel_call 4 100 mbDEV [RUN_SYNC_MSG_GO, RUN_SYNC_MSG_ALL_SLAVES_DONE]
    bodyDEVResult.1 bodyDEVResult.2 (Option.some_get (by rfl)).symm

/-- Running a sequence of launches from any in-range read pointer advances it
by the number of DEV-mode launch messages, modulo the power-of-two ring
capacity. -/
theorem runLaunches_rd (e N base : Nat) (hN : N = 2 ^ e) (inputs : List LaunchInput) :
    ∀ (s : SyncRegs) (m : Mailboxes) (r : SyncRegs × Mailboxes × List Event),
      m.launch_msg_rd_ptr < N → runLaunches N base s m inputs = some r →
      r.2.1.launch_msg_rd_ptr =
        (m.launch_msg_rd_ptr +
          inputs.countP (fun i => i.msg.kernel_config.mode == DISPATCH_MODE_DEV)) % N := by
  induction inputs with
  | nil =>
    intro s m r hlt h
    unfold runLaunches at h
    simp only [Option.some.injEq] at h
    rw [← h]
    simp [Nat.mod_eq_of_lt hlt]
  | cons inp rest ih =>
    intro s m r hlt h
    unfold runLaunches at h
    cases hi : loopIter N base s (hostWrite m inp.msg) inp.goSched inp.slaveSched with
    | none => rw [hi] at h; simp at h
    | some r1 =>
      obtain ⟨s1, m1, tr1⟩ := r1
      rw [hi] at h
      dsimp only at h
      cases hr : runLaunches N base s1 m1 rest with
      | none => rw [hr] at h; simp at h
      | some r2 =>
        obtain ⟨s2, m2, tr2⟩ := r2
        rw [hr] at h
        simp only [Option.some.injEq] at h
        rw [← h]
        have hrd1 := loopIter_rd N base s (hostWrite m inp.msg) inp.goSched inp.slaveSched
          s1 m1 tr1 hi
        rw [(hostWrite_read m inp.msg).2, (hostWrite_read m inp.msg).1] at hrd1
        have hNpos : 0 < N := by rw [hN]; exact Nat.pos_pow_of_pos e (by norm_num)
        rw [List.countP_cons]
        by_cases hdev : inp.msg.kernel_config.mode = DISPATCH_MODE_DEV
        · rw [if_pos hdev] at hrd1
          have hm1 : m1.launch_msg_rd_ptr = (m.launch_msg_rd_ptr + 1) % N := by
            rw [hrd1, hN, Nat.and_pow_two_sub_one_eq_mod]
          have hm1lt : m1.launch_msg_rd_ptr < N := by
            rw [hm1]; exact Nat.mod_lt _ hNpos
          have hrec := ih s1 m1 (s2, m2, tr2) hm1lt hr
          simp only at hrec
          rw [hrec, hm1, Nat.mod_add_mod]
          have hp : (inp.msg.kernel_config.mode == DISPATCH_MODE_DEV) = true := by
            simp [hdev]
          rw [hp]
          simp only [if_true]
          congr 1
          omega
        · rw [if_neg hdev] at hrd1
          have hm1lt : m1.launch_msg_rd_ptr < N := by rw [hrd1]; exact hlt
          have hrec := ih s1 m1 (s2, m2, tr2) hm1lt hr
          simp only at hrec
          rw [hrec, hrd1]
          have hp : (inp.msg.kernel_config.mode == DISPATCH_MODE_DEV) = false := by
            simp [hdev]
          rw [hp]
          simp

/-- C2: starting from the boot read pointer 0, after a sequence of completed
launches the mailbox field launch_msg_rd_ptr equals the number of launches
whose launch message was in DEV mode, modulo the power-of-two ring capacity
N; each DEV-mode launch advances the pointer by exactly one through the
bitmask with N minus one, and non-DEV launches leave it unchanged. -/
theorem C2_launch_msg_rd_ptr_mod (e N base : Nat) (hN : N = 2 ^ e)
    (s : SyncRegs) (m : Mailboxes) (h0 : m.launch_msg_rd_ptr = 0)
    (inputs : List LaunchInput) (r : SyncRegs × Mailboxes × List Event)
    (hr : runLaunches N base s m inputs = some r) :
    r.2.1.launch_msg_rd_ptr =
      (inputs.countP (fun i => i.msg.kernel_config.mode == DISPATCH_MODE_DEV)) % N := by
  have hlt : m.launch_msg_rd_ptr < N := by
    rw [h0, hN]; exact Nat.pos_pow_of_pos e (by norm_num)
  have hres := runLaunches_rd e N base hN inputs s m r hlt hr
  rwa [h0, Nat.zero_add] at hres

/-- Witness for C2: three DEV launches on the capacity-four ring leave the
read pointer at 3 mod 4. -/
theorem C2_launch_msg_rd_ptr_mod_witness :
    (4 = 2 ^ 2) ∧ mbDEV.launch_msg_rd_ptr = 0 ∧
    runDEVResult.2.1.launch_msg_rd_ptr =
      ([inpDEV, inpDEV, inpDEV].countP
        (fun i => i.msg.kernel_config.mode == DISPATCH_MODE_DEV)) % 4 :=
  ⟨rfl, rfl,
    C2_launch_msg_rd_ptr_mod 2 4 100 rfl sFix mbDEV rfl [inpDEV, inpDEV, inpDEV]
      runDEVResult (Option.some_get (by rfl)).symm⟩

/-- Bitwise or of a shifted value with a value that fits below the shift is
addition. -/
theorem lor_eq_add_of_lt (a b i : Nat) (h : b < 2 ^ i) :
    a * 2 ^ i ||| b = a * 2 ^ i + b := by
  apply Nat.eq_of_testBit_eq
  intro j
  rw [Nat.testBit_lor, Nat.mul_comm a, Nat.testBit_mul_pow_two_add a h j]
  have h0 : (2 ^ i * a + 0).testBit j =
      if j < i then Nat.testBit 0 j else a.testBit (j - i) :=
    Nat.testBit_mul_pow_two_add a (Nat.pos_pow_of_pos i (by norm_num)) j
  rw [Nat.add_zero] at h0
  rw [h0]
  by_cases hj : j < i
  · simp [hj]
  · simp only [hj, if_false]
    have hb : b.testBit j = false :=
      Nat.testBit_lt_two_pow
        (lt_of_lt_of_le h (Nat.pow_le_pow_right (by norm_num) (Nat.le_of_not_lt hj)))
    simp [hb]

/-- With every coordinate below 64, the multicast word is the plain sum of
the four fields placed at bit offsets 0, 6, 12 and 18. -/
theorem NOC_MULTICAST_ENCODING_eq_sum (x0 y0 x1 y1 : Nat)
    (h0 : x0 < 64) (h1 : y0 < 64) (h2 : x1 < 64) (h3 : y1 < 64) :
    NOC_MULTICAST_ENCODING x0 y0 x1 y1 = x1 + y1 * 64 + x0 * 4096 + y0 * 262144 := by
  have e1 : x0 * 4096 ||| y0 * 262144 = y0 * 262144 + x0 * 4096 := by
    rw [Nat.lor_comm]
    have hb : x0 * 4096 < 2 ^ 18 := by norm_num; omega
    have hl := lor_eq_add_of_lt y0 (x0 * 4096) 18 hb
    norm_num at hl
    exact hl
  have e2 : y0 * 262144 + x0 * 4096 ||| y1 * 64 = y0 * 262144 + x0 * 4096 + y1 * 64 := by
    have hrw : y0 * 262144 + x0 * 4096 = (y0 * 64 + x0) * 4096 := by ring
    have hb : y1 * 64 < 2 ^ 12 := by norm_num; omega
    have hl := lor_eq_add_of_lt (y0 * 64 + x0) (y1 * 64) 12 hb
    norm_num at hl
    rw [hrw, hl]
  have e3 : y0 * 262144 + x0 * 4096 + y1 * 64 ||| x1 =
      y0 * 262144 + x0 * 4096 + y1 * 64 + x1 := by
    have hrw : y0 * 262144 + x0 * 4096 + y1 * 64 = (y0 * 4096 + x0 * 64 + y1) * 64 := by
      ring
    have hb : x1 < 2 ^ 6 := by norm_num; omega
    have hl := lor_eq_add_of_lt (y0 * 4096 + x0 * 64 + y1) x1 6 hb
    norm_num at hl
    rw [hrw, hl]
  show x0 <<< (2 * NOC_ADDR_NODE_ID_BITS) ||| y0 <<< (3 * NOC_ADDR_NODE_ID_BITS) |||
      x1 ||| y1 <<< NOC_ADDR_NODE_ID_BITS = _
  rw [Nat.shiftLeft_eq, Nat.shiftLeft_eq, Nat.shiftLeft_eq]
  unfold NOC_ADDR_NODE_ID_BITS
  norm_num
  rw [Nat.lor_assoc, Nat.lor_comm x1 (y1 * 64), ← Nat.lor_assoc, e1, e2, e3]
  ring

/-- C7: for coordinates each below two to the NOC_ADDR_NODE_ID_BITS, the
multicast encoding fits one 32-bit word and places the four coordinates into
four disjoint NOC_ADDR_NODE_ID_BITS-wide fields, so each coordinate is
recovered by extracting its field: the encoding is injective. -/
theorem C7_multicast_encoding_recoverable (x0 y0 x1 y1 : Nat)
    (h0 : x0 < 2 ^ NOC_ADDR_NODE_ID_BITS) (h1 : y0 < 2 ^ NOC_ADDR_NODE_ID_BITS)
    (h2 : x1 < 2 ^ NOC_ADDR_NODE_ID_BITS) (h3 : y1 < 2 ^ NOC_ADDR_NODE_ID_BITS) :
    NOC_MULTICAST_ENCODING x0 y0 x1 y1 < 2 ^ 32 ∧
    mcast_field (NOC_MULTICAST_ENCODING x0 y0 x1 y1) 2 = x0 ∧
    mcast_field (NOC_MULTICAST_ENCODING x0 y0 x1 y1) 3 = y0 ∧
    mcast_field (NOC_MULTICAST_ENCODING x0 y0 x1 y1) 0 = x1 ∧
    mcast_field (NOC_MULTICAST_ENCODING x0 y0 x1 y1) 1 = y1 := by
  have h0' : x0 < 64 := by simpa [NOC_ADDR_NODE_ID_BITS] using h0
  have h1' : y0 < 64 := by simpa [NOC_ADDR_NODE_ID_BITS] using h1
  have h2' : x1 < 64 := by simpa [NOC_ADDR_NODE_ID_BITS] using h2
  have h3' : y1 < 64 := by simpa [NOC_ADDR_NODE_ID_BITS] using h3
  rw [NOC_MULTICAST_ENCODING_eq_sum x0 y0 x1 y1 h0' h1' h2' h3']
  unfold mcast_field NOC_ADDR_NODE_ID_BITS
  norm_num
  refine ⟨by omega, by omega, by omega, by omega, by omega⟩

/-- Witness for C7 at the corner coordinates 5, 6, 7, 8. -/
theorem C7_multicast_encoding_recoverable_witness :
    (5 < 2 ^ NOC_ADDR_NODE_ID_BITS ∧ 6 < 2 ^ NOC_ADDR_NODE_ID_BITS ∧
     7 < 2 ^ NOC_ADDR_NODE_ID_BITS ∧ 8 < 2 ^ NOC_ADDR_NODE_ID_BITS) ∧
    (NOC_MULTICAST_ENCODING 5 6 7 8 < 2 ^ 32 ∧
     mcast_field (NOC_MULTICAST_ENCODING 5 6 7 8) 2 = 5 ∧
     mcast_field (NOC_MULTICAST_ENCODING 5 6 7 8) 3 = 6 ∧
     mcast_field (NOC_MULTICAST_ENCODING 5 6 7 8) 0 = 7 ∧
     mcast_field (NOC_MULTICAST_ENCODING 5 6 7 8) 1 = 8) :=
  ⟨⟨by decide, by decide, by decide, by decide⟩,
    C7_multicast_encoding_recoverable 5 6 7 8 (by decide) (by decide) (by decide) (by decide)⟩

end TT
